import Mathlib

/-!
Shallow embedding of the `@sdods/observability` package
(`src/packages/observability/src/index.ts`): structured Logger,
Span/Tracer, and Metrics registry with Prometheus text exposition.

Modelling conventions:
* JavaScript numbers are modelled as `Int` (all claim-relevant arithmetic is
  exact addition/counting); `Math.random()` draws are modelled as `Rat`
  parameters in `[0,1)` supplied explicitly to each operation.
* A JavaScript object used as a string-keyed map (`Record<string, _>`,
  `Map<string, _>`) is modelled as an insertion-ordered association list
  `List (String × α)`; `Map.set` / property assignment updates an existing
  key in place and appends a fresh key at the end, exactly as the JS runtime
  does.
* Side effects that the claims observe (invocations of the span-completion
  callback) are modelled as explicit counters threaded through the state.
-/

namespace Sdods

/-- Association-list lookup modelling `Map.get` / JS property read:
the value at the first matching key, `none` when absent. -/
def assocFind {α : Type} : List (String × α) → String → Option α
  | [], _ => none
  | (k', v) :: rest, k => if k' = k then some v else assocFind rest k

/-- Association-list update modelling `Map.set` / JS property assignment:
replaces the value at an existing key in place (keeping its position),
appends `(k, v)` at the end when the key is new. -/
def mapSet {α : Type} : List (String × α) → String → α → List (String × α)
  | [], k, v => [(k, v)]
  | (k', v') :: rest, k, v =>
      if k' = k then (k, v) :: rest else (k', v') :: mapSet rest k v

-- ============================================================
-- METRICS  (source: `class Metrics`, index.ts lines 385–472)
-- ============================================================

/-- `MetricsConfig` after the constructor's defaulting
(`this.config = { prefix: '', ...config }`): `prefix` is always a string. -/
structure MetricsConfigR where
  service : String
  endpoint : Option String := none
  /-- models the config field named `pre` + `fix` (a Lean keyword) -/
  namePrefix : String := ""
deriving Repr, DecidableEq

/-- The registry's three instrument maps (`counters`, `gauges`, `histograms`),
each keyed by the series key string, in insertion order. -/
structure MetricsState where
  counters : List (String × Int) := []
  gauges : List (String × Int) := []
  histograms : List (String × List Int) := []
deriving Repr, DecidableEq

/-- A label set as JS supplies it: `Record<string, string>` in insertion
order (`Object.entries` preserves it). -/
abbrev Labels := List (String × String)

/-- The `prefix`-applied instrument name of `Metrics.getKey`:
`(config.prefix ? config.prefix + "_" : "") + name`
(an empty prefix string is falsy). -/
def Metrics.prefixedName (cfg : MetricsConfigR) (name : String) : String :=
  (if cfg.namePrefix = "" then "" else cfg.namePrefix ++ "_") ++ name

/-- The `labelStr` local of `Metrics.getKey`:
`labels ? Object.entries(labels).map(([k,v]) => k + "=\"" + v + "\"").join(',') : ''`
(`Object.entries` preserves insertion order). -/
def Metrics.labelString : Option Labels → String
  | some ls => String.intercalate "," (ls.map fun kv => kv.1 ++ "=\"" ++ kv.2 ++ "\"")
  | none => ""

/-- `Metrics.getKey(name, labels)`: `prefix + name + "{" + labelStr + "}"`. -/
def Metrics.getKey (cfg : MetricsConfigR) (name : String) (labels : Option Labels) : String :=
  Metrics.prefixedName cfg name ++ "\x7b" ++ Metrics.labelString labels ++ "\x7d"

/-- `counter(name).inc(value = 1, labels?)`: adds `value` to the series'
accumulator, reading the current value as `counters.get(key) || 0`. -/
def Metrics.counterInc (cfg : MetricsConfigR) (m : MetricsState) (name : String)
    (value : Int) (labels : Option Labels) : MetricsState :=
  let key := Metrics.getKey cfg name labels
  let current := (assocFind m.counters key).getD 0
  { m with counters := mapSet m.counters key (current + value) }

/-- `gauge(name).set(value, labels?)`. -/
def Metrics.gaugeSet (cfg : MetricsConfigR) (m : MetricsState) (name : String)
    (value : Int) (labels : Option Labels) : MetricsState :=
  let key := Metrics.getKey cfg name labels
  { m with gauges := mapSet m.gauges key value }

/-- `gauge(name).inc(value = 1, labels?)`. -/
def Metrics.gaugeInc (cfg : MetricsConfigR) (m : MetricsState) (name : String)
    (value : Int) (labels : Option Labels) : MetricsState :=
  let key := Metrics.getKey cfg name labels
  let current := (assocFind m.gauges key).getD 0
  { m with gauges := mapSet m.gauges key (current + value) }

/-- `gauge(name).dec(value = 1, labels?)`. -/
def Metrics.gaugeDec (cfg : MetricsConfigR) (m : MetricsState) (name : String)
    (value : Int) (labels : Option Labels) : MetricsState :=
  let key := Metrics.getKey cfg name labels
  let current := (assocFind m.gauges key).getD 0
  { m with gauges := mapSet m.gauges key (current - value) }

/-- `histogram(name).observe(value, labels?)`: appends `value` to the series'
sample list (`histograms.get(key) || []`, then `push`). -/
def Metrics.histogramObserve (cfg : MetricsConfigR) (m : MetricsState) (name : String)
    (value : Int) (labels : Option Labels) : MetricsState :=
  let key := Metrics.getKey cfg name labels
  let values := (assocFind m.histograms key).getD []
  { m with histograms := mapSet m.histograms key (values ++ [value]) }

/-- `key.split('{')[0]`: the characters before the first `'{'`
(the whole string when none occurs). -/
def jsSplitHeadBrace (s : String) : String :=
  String.mk (s.toList.takeWhile fun c => c ≠ '{')

/-- `key.includes('{') ? key.slice(key.indexOf('{')) : '{}'`: the label
portion of a series key, from the first `'{'` to the end. -/
def jsLabelSlice (s : String) : String :=
  if (s.toList.contains '{') then String.mk (s.toList.dropWhile fun c => c ≠ '{')
  else "\x7b\x7d"

/-- Replace the FIRST occurrence of character `t` by the string `r`
(JS `String.prototype.replace` with a string pattern replaces only the
first occurrence). -/
def replaceFirstChar : List Char → Char → List Char → List Char
  | [], _, _ => []
  | c :: rest, t, r => if c = t then r ++ rest else c :: replaceFirstChar rest t r

/-- `key.replace('}', ',le="+Inf"}')`. -/
def jsReplaceInf (s : String) : String :=
  String.mk (replaceFirstChar s.toList '}' ",le=\"+Inf\"\x7d".toList)

/-- `values.reduce((a, b) => a + b, 0)`. -/
def jsSum (values : List Int) : Int := values.foldl (· + ·) 0

/-- The two exposition lines the counter loop of `toPrometheus` emits per
counter series; identically shaped for gauges. -/
def scalarLines (kind : String) (key : String) (value : Int) : List String :=
  ["# TYPE " ++ jsSplitHeadBrace key ++ " " ++ kind, key ++ " " ++ toString value]

/-- The four exposition lines the histogram loop of `toPrometheus` emits per
histogram series. -/
def histogramLines (key : String) (values : List Int) : List String :=
  let name := jsSplitHeadBrace key
  let sum := jsSum values
  let count := values.length
  ["# TYPE " ++ name ++ " histogram",
   jsReplaceInf key ++ " " ++ toString count,
   name ++ "_sum" ++ jsLabelSlice key ++ " " ++ toString sum,
   name ++ "_count" ++ jsLabelSlice key ++ " " ++ toString count]

/-- `Metrics.toPrometheus()` as the list of lines it pushes, in order:
counters first, then gauges, then histograms. -/
def Metrics.toPrometheusLines (m : MetricsState) : List String :=
  (m.counters.flatMap fun kv => scalarLines "counter" kv.1 kv.2)
    ++ (m.gauges.flatMap fun kv => scalarLines "gauge" kv.1 kv.2)
    ++ (m.histograms.flatMap fun kv => histogramLines kv.1 kv.2)

/-- `Metrics.toPrometheus()`: `lines.join('\n')`. -/
def Metrics.toPrometheus (m : MetricsState) : String :=
  String.intercalate "\n" (Metrics.toPrometheusLines m)

-- ============================================================
-- TRACER / SPAN  (source: index.ts lines 237–379)
-- ============================================================

/-- `const chars = '0123456789abcdef'`. -/
def hexChars : List Char := "0123456789abcdef".toList

/-- `generateId(length)`: one character per loop iteration,
`chars[Math.floor(Math.random() * chars.length)]`; the i-th call to
`Math.random()` is modelled as `rand i` (a rational in `[0,1)`). -/
def generateId (rand : Nat → Rat) (length : Nat) : String :=
  String.mk ((List.range length).map fun i => hexChars.getD (Int.toNat ⌊rand i * 16⌋) '0')

/-- A span attribute value: `string | number | boolean`. -/
inductive AttrValue where
  | str (s : String)
  | num (n : Int)
  | bool (b : Bool)
deriving Repr, DecidableEq

/-- `SpanEvent`: name, timestamp, optional attributes
(`Record<string, unknown>` values modelled as strings). -/
structure SpanEventR where
  name : String
  timestamp : Int
  attributes : Option (List (String × String)) := none
deriving Repr, DecidableEq

/-- Span status: `'ok' | 'error' | 'unset'`. -/
inductive SpanStatus where
  | unset
  | ok
  | error
deriving Repr, DecidableEq

/-- The mutable state of a sampled `SpanImpl`. `onEndCalls` counts the
invocations of the completion callback `onEnd` that the constructor
registered (the observable completion side effect). -/
structure SpanState where
  name : String
  traceId : String
  spanId : String
  startTime : Int
  endTime : Option Int := none
  attributes : List (String × AttrValue) := []
  events : List SpanEventR := []
  status : SpanStatus := .unset
  onEndCalls : Nat := 0
deriving Repr, DecidableEq

/-- `SpanImpl.setAttribute(key, value)`: `this.attributes[key] = value`. -/
def SpanState.setAttribute (s : SpanState) (key : String) (value : AttrValue) : SpanState :=
  { s with attributes := mapSet s.attributes key value }

/-- `SpanImpl.addEvent(name, attributes?)`: pushes
`{name, timestamp: Date.now(), attributes}`. -/
def SpanState.addEvent (s : SpanState) (now : Int) (name : String)
    (attributes : Option (List (String × String))) : SpanState :=
  { s with events := s.events ++ [{ name, timestamp := now, attributes }] }

/-- `SpanImpl.setStatus(status, message?)`: sets `this.status`; then
`if (message)` — truthy, i.e. present and non-empty — assigns
`this.attributes['status.message'] = message`. -/
def SpanState.setStatus (s : SpanState) (status : SpanStatus) (message : Option String) :
    SpanState :=
  let s' := { s with status := status }
  match message with
  | some m => if m = "" then s' else { s' with attributes := mapSet s'.attributes "status.message" (.str m) }
  | none => s'

/-- `SpanImpl.end()` (named `endSpan` here, `end` being a Lean keyword):
`this.endTime = Date.now(); this.onEnd(this)` — the callback fires on
every call, counted in `onEndCalls`. -/
def SpanState.endSpan (s : SpanState) (now : Int) : SpanState :=
  { s with endTime := some now, onEndCalls := s.onEndCalls + 1 }

/-- A runtime span object as `startSpan` can hand it out:
* `real s` — a sampled `SpanImpl` with state `s`;
* `noop name` — the inert object literal of the unsampled branch
  (traceId `""`, spanId `""`, startTime 0, empty attributes/events,
  status `unset`);
* `emptyObj` — the `({ } as Span)` value that the no-op span's mutators
  return: an empty object carrying none of the `Span` methods. -/
inductive SpanObj where
  | real (s : SpanState)
  | noop (name : String)
  | emptyObj
deriving Repr, DecidableEq

/-- Whether the object is a sampled `SpanImpl`. -/
def SpanObj.isReal : SpanObj → Bool
  | .real _ => true
  | _ => false

/-- Property read `span.traceId`: `none` models `undefined`
(reading a missing property off the empty object). -/
def SpanObj.traceIdOf : SpanObj → Option String
  | .real s => some s.traceId
  | .noop _ => some ""
  | .emptyObj => none

/-- Method call `span.setAttribute(key, value)`.  `none` models the
TypeError of calling a missing method on the empty object; on the no-op
span the method returns `({ } as Span)`, NOT the span itself. -/
def SpanObj.setAttributeM : SpanObj → String → AttrValue → Option SpanObj
  | .real s, key, value => some (.real (s.setAttribute key value))
  | .noop _, _, _ => some .emptyObj
  | .emptyObj, _, _ => none

/-- Method call `span.addEvent(name, attributes?)`. -/
def SpanObj.addEventM : SpanObj → Int → String → Option (List (String × String)) → Option SpanObj
  | .real s, now, name, attrs => some (.real (s.addEvent now name attrs))
  | .noop _, _, _, _ => some .emptyObj
  | .emptyObj, _, _, _ => none

/-- Method call `span.setStatus(status, message?)`. -/
def SpanObj.setStatusM : SpanObj → SpanStatus → Option String → Option SpanObj
  | .real s, st, msg => some (.real (s.setStatus st msg))
  | .noop _, _, _ => some .emptyObj
  | .emptyObj, _, _ => none

/-- Method call `span.end()`: the resulting object state; the no-op span's
`end: () => {}` changes nothing and fires no callback. -/
def SpanObj.endM : SpanObj → Int → Option SpanObj
  | .real s, now => some (.real (s.endSpan now))
  | .noop n, _ => some (.noop n)
  | .emptyObj, _ => none

/-- `TracerConfig` after the constructor's defaulting
(`this.config = { sampleRate: 1.0, ...config }`). -/
structure TracerConfigR where
  service : String
  endpoint : Option String := none
  sampleRate : Rat := 1
deriving Repr, DecidableEq

/-- JS `x || d` on numbers: `0` (and `NaN`) is falsy, so a zero rate falls
back to the default. -/
def jsOrNum (x d : Rat) : Rat := if x = 0 then d else x

/-- JS `x || d` where `x : string | undefined`: `undefined` and `""` are
falsy. -/
def jsOrStr (x : Option String) (d : String) : String :=
  match x with
  | some s => if s = "" then d else s
  | none => d

/-- `Tracer.shouldSample()`:
`Math.random() < (this.config.sampleRate || 1.0)`, the draw `r` supplied
explicitly. -/
def Tracer.shouldSample (cfg : TracerConfigR) (r : Rat) : Bool :=
  r < jsOrNum cfg.sampleRate 1

/-- `SpanOptions`: optional seed attributes and optional parent span. -/
structure SpanOptionsR where
  attributes : Option (List (String × AttrValue)) := none
  parent : Option SpanObj := none

/-- `Tracer.startSpan(name, options = {})`: on a rejected sample the inert
object literal is returned; otherwise
`traceId = options.parent?.traceId || generateId(32)`, a fresh
`spanId = generateId(16)`, `startTime = Date.now()`, attributes seeded by
spread from `options.attributes` when present.  `r` is the sampling draw;
`randTrace`/`randSpan` are the `Math.random()` draws consumed by the two
`generateId` calls. -/
def Tracer.startSpanObj (cfg : TracerConfigR) (r : Rat) (randTrace randSpan : Nat → Rat)
    (now : Int) (name : String) (options : SpanOptionsR) : SpanObj :=
  if ¬ Tracer.shouldSample cfg r then .noop name
  else
    let traceId := jsOrStr (options.parent.bind SpanObj.traceIdOf) (generateId randTrace 32)
    .real {
      name, traceId,
      spanId := generateId randSpan 16,
      startTime := now,
      endTime := none,
      attributes := (options.attributes.getD []),
      events := [], status := .unset, onEndCalls := 0 }

/-- A value thrown by the wrapped function of `trace`: either a JS `Error`
object (carrying its `message`) or any non-`Error` value. -/
inductive Thrown where
  | errorObj (message : String)
  | nonError (tag : String)
deriving Repr, DecidableEq

/-- `error instanceof Error ? error.message : 'Unknown error'`. -/
def Thrown.messageFor : Thrown → String
  | .errorObj m => m
  | .nonError _ => "Unknown error"

/-- The body of `Tracer.trace` on the sampled path, given the span
`span0` that `startSpan` created.  `fn` receives the span and returns the
span as it left it together with its outcome (`await fn(span)`):
* normal return: `span.setStatus('ok')` (no message), then — in the
  `finally` — `span.end()`, and the value is returned;
* throw/rejection: `span.setStatus('error', message-from-error)`, then the
  `finally` runs `span.end()`, and the original error is re-thrown. -/
def Tracer.traceSampled {T : Type} (span0 : SpanState)
    (fn : SpanState → SpanState × Except Thrown T) (tEnd : Int) :
    Except Thrown T × SpanState :=
  match fn span0 with
  | (s1, .ok v) => (.ok v, (s1.setStatus .ok none).endSpan tEnd)
  | (s1, .error e) => (.error e, (s1.setStatus .error (some e.messageFor)).endSpan tEnd)

-- ============================================================
-- LOGGER  (source: index.ts lines 91–231)
-- ============================================================

/-- `LogLevel`. -/
inductive LogLevel where
  | debug
  | info
  | warn
  | error
  | fatal
deriving Repr, DecidableEq

/-- `const LOG_LEVELS = { debug: 0, info: 1, warn: 2, error: 3, fatal: 4 }`. -/
def LOG_LEVELS : LogLevel → Nat
  | .debug => 0
  | .info => 1
  | .warn => 2
  | .error => 3
  | .fatal => 4

/-- `LoggerConfig.destination`. -/
inductive Destination where
  | console
  | json
  | custom
deriving Repr, DecidableEq

/-- A JS `Error` object as the logger embeds it: `name`, `message`,
`stack`. -/
structure ErrObj where
  name : String := "Error"
  message : String
  stack : Option String := none
deriving Repr, DecidableEq

/-- A structured-log context, `Record<string, unknown>`
(values modelled as strings). -/
abbrev LogCtx := List (String × String)

/-- `LogEntry`. -/
structure LogEntryR where
  level : LogLevel
  message : String
  timestamp : Int
  service : String
  context : Option LogCtx := none
  error : Option ErrObj := none
  traceId : Option String := none
  spanId : Option String := none
deriving Repr, DecidableEq

/-- `LoggerConfig` as the caller supplies it (everything but `service`
optional). -/
structure LoggerConfigR where
  service : String
  level : Option LogLevel := none
  pretty : Option Bool := none
  destination : Option Destination := none
deriving Repr, DecidableEq

/-- Logger instance state after the constructor's defaulting
(`level: isDev ? 'debug' : 'info'`, `pretty: isDev`,
`destination: 'console'`, then the caller's config spread over it), plus
the ambient trace-context fields. -/
structure LoggerState where
  service : String
  level : LogLevel
  pretty : Bool
  destination : Destination
  currentTraceId : Option String := none
  currentSpanId : Option String := none
deriving Repr, DecidableEq

/-- `new Logger(config)`, parameterized by the environment flag `isDev`. -/
def Logger.create (isDev : Bool) (cfg : LoggerConfigR) : LoggerState :=
  { service := cfg.service,
    level := cfg.level.getD (if isDev then .debug else .info),
    pretty := cfg.pretty.getD isDev,
    destination := cfg.destination.getD .console }

/-- `Logger.setTraceContext(traceId, spanId)`. -/
def Logger.setTraceContext (l : LoggerState) (traceId spanId : String) : LoggerState :=
  { l with currentTraceId := some traceId, currentSpanId := some spanId }

/-- `Logger.clearTraceContext()`. -/
def Logger.clearTraceContext (l : LoggerState) : LoggerState :=
  { l with currentTraceId := none, currentSpanId := none }

/-- `Logger.shouldLog(level)`:
`LOG_LEVELS[level] >= LOG_LEVELS[this.config.level]`. -/
def Logger.shouldLog (l : LoggerState) (level : LogLevel) : Bool :=
  LOG_LEVELS level ≥ LOG_LEVELS l.level

/-- `Logger.log(level, message, context?, error?)` reduced to its emission
behavior: when the level is filtered out the method returns before any
entry (or timestamp) is built; otherwise it builds exactly one `LogEntry`
tagged with the bound trace context and routes it to the destination.
The returned option is that entry (`none` = the call was a no-op). -/
def Logger.log (l : LoggerState) (level : LogLevel) (message : String)
    (context : Option LogCtx) (error : Option ErrObj) (now : Int) : Option LogEntryR :=
  if ¬ Logger.shouldLog l level then none
  else some {
    level, message,
    timestamp := now,
    service := l.service,
    context, error,
    traceId := l.currentTraceId,
    spanId := l.currentSpanId }

/-- `Logger.debug(message, context?)`. -/
def Logger.debugM (l : LoggerState) (message : String) (context : Option LogCtx)
    (now : Int) : Option LogEntryR :=
  Logger.log l .debug message context none now

/-- `Logger.info(message, context?)`. -/
def Logger.infoM (l : LoggerState) (message : String) (context : Option LogCtx)
    (now : Int) : Option LogEntryR :=
  Logger.log l .info message context none now

/-- `Logger.warn(message, context?)`. -/
def Logger.warnM (l : LoggerState) (message : String) (context : Option LogCtx)
    (now : Int) : Option LogEntryR :=
  Logger.log l .warn message context none now

/-- `Logger.error(message, error?, context?)`. -/
def Logger.errorM (l : LoggerState) (message : String) (error : Option ErrObj)
    (context : Option LogCtx) (now : Int) : Option LogEntryR :=
  Logger.log l .error message context error now

/-- `Logger.fatal(message, error?, context?)`. -/
def Logger.fatalM (l : LoggerState) (message : String) (error : Option ErrObj)
    (context : Option LogCtx) (now : Int) : Option LogEntryR :=
  Logger.log l .fatal message context error now

/-- `Logger.log` with its destination dispatch and exception flow.  The
source wraps nothing in try/catch: for `destination: 'custom'` it calls
`this.config.customHandler(entry)` directly, so an exception the
caller-supplied handler throws propagates out of the logging call
(`Except.error`).  Console destinations are modelled as exception-free
writes.  (Formatting is modelled as total here; `JSON.stringify` on
pathological contexts is a further unguarded throw site in the source.) -/
def Logger.logRun (l : LoggerState) (handler : LogEntryR → Except String Unit)
    (level : LogLevel) (message : String) (context : Option LogCtx)
    (error : Option ErrObj) (now : Int) : Except String (Option LogEntryR) :=
  match Logger.log l level message context error now with
  | none => .ok none
  | some entry =>
    match l.destination with
    | .custom =>
      match handler entry with
      | .ok _ => .ok (some entry)
      | .error e => .error e
    | _ => .ok (some entry)

-- ============================================================
-- DERIVED DEFINITIONS (iterated calls, observed values)
-- ============================================================

/-- The accumulated value of a counter series: the stored value, `0` when
the series has never been touched (`counters.get(key) || 0`). -/
def counterValue (m : MetricsState) (key : String) : Int :=
  (assocFind m.counters key).getD 0

/-- A sequence of `counter(name).inc(value, labels)` calls, applied in
order. -/
def Metrics.applyCounterIncs (cfg : MetricsConfigR) :
    MetricsState → List (String × Int × Option Labels) → MetricsState
  | m, [] => m
  | m, (name, value, labels) :: ops =>
      Metrics.applyCounterIncs cfg (Metrics.counterInc cfg m name value labels) ops

/-- A sequence of `span.end()` calls at the given successive clock
readings, applied in order. -/
def SpanState.applyEnds : SpanState → List Int → SpanState
  | s, [] => s
  | s, t :: ts => SpanState.applyEnds (s.endSpan t) ts

-- Concrete fixtures used by witnesses and counterexamples.

/-- A fresh sampled span fixture (no attributes, no events, no end). -/
def spanFix : SpanState :=
  { name := "op", traceId := "t", spanId := "s", startTime := 0 }

/-- A parent span fixture carrying the non-hex traceId `"zz"`. -/
def parentZZ : SpanState :=
  { name := "p", traceId := "zz", spanId := "0123456789abcdef", startTime := 0 }

/-- A parent span fixture carrying a well-formed 32-hex traceId. -/
def parentHex : SpanState :=
  { name := "p", traceId := "0123456789abcdef0123456789abcdef",
    spanId := "0123456789abcdef", startTime := 0 }

-- ============================================================
-- HELPER LEMMAS
-- ============================================================

theorem assocFind_mapSet_self {α : Type} (l : List (String × α)) (k : String) (v : α) :
    assocFind (mapSet l k v) k = some v := by
  induction l with
  | nil => simp [mapSet, assocFind]
  | cons hd tl ih =>
      obtain ⟨k', v'⟩ := hd
      by_cases h : k' = k
      · simp [mapSet, h, assocFind]
      · simp [mapSet, h, assocFind, ih]

theorem assocFind_mapSet_other {α : Type} (l : List (String × α)) (k k' : String) (v : α)
    (hne : k ≠ k') : assocFind (mapSet l k v) k' = assocFind l k' := by
  induction l with
  | nil => simp [mapSet, assocFind, hne]
  | cons hd tl ih =>
      obtain ⟨k₀, v₀⟩ := hd
      by_cases h : k₀ = k
      · subst h
        simp [mapSet, assocFind, hne]
      · simp [mapSet, h, assocFind, ih]

theorem takeWhile_brace (a b : List Char) (h : '{' ∉ a) :
    (a ++ '{' :: b).takeWhile (fun c => c ≠ '{') = a := by
  induction a with
  | nil => simp [List.takeWhile]
  | cons hd tl ih =>
      simp only [List.mem_cons, not_or] at h
      have h1 : hd ≠ '{' := fun hh => h.1 hh.symm
      simp only [List.cons_append, List.takeWhile_cons, h1, ne_eq]
      simp only [decide_not, decide_eq_true_eq]
      rw [if_pos (by simp [h1])]
      exact congrArg (hd :: ·) (by simpa using ih h.2)

theorem dropWhile_brace (a b : List Char) (h : '{' ∉ a) :
    (a ++ '{' :: b).dropWhile (fun c => c ≠ '{') = '{' :: b := by
  induction a with
  | nil => simp [List.dropWhile]
  | cons hd tl ih =>
      simp only [List.mem_cons, not_or] at h
      have h1 : hd ≠ '{' := fun hh => h.1 hh.symm
      simp only [List.cons_append, List.dropWhile_cons]
      rw [if_pos (by simp [h1])]
      exact ih h.2

theorem replaceFirstChar_append (a b r : List Char) (t : Char) (h : t ∉ a) :
    replaceFirstChar (a ++ t :: b) t r = a ++ r ++ b := by
  induction a with
  | nil => simp [replaceFirstChar]
  | cons hd tl ih =>
      simp only [List.mem_cons, not_or] at h
      have h1 : hd ≠ t := fun hh => h.1 hh.symm
      simp [replaceFirstChar, h1, ih h.2]

theorem assocFind_some_mem {A : Type} {l : List (String × A)} {k : String} {v : A}
    (h : assocFind l k = some v) : (k, v) ∈ l := by
  induction l with
  | nil => simp [assocFind] at h
  | cons hd tl ih =>
      obtain ⟨k0, v0⟩ := hd
      by_cases hk : k0 = k
      · subst hk
        simp [assocFind] at h
        simp [h]
      · simp [assocFind, hk] at h
        exact List.mem_cons_of_mem _ (ih h)

theorem string_toList_append (x y : String) : (x ++ y).toList = x.toList ++ y.toList := rfl

theorem string_mk_toList (s : String) : String.mk s.toList = s := rfl

theorem getKey_toList (cfg : MetricsConfigR) (name : String) (labels : Option Labels) :
    (Metrics.getKey cfg name labels).toList =
      (Metrics.prefixedName cfg name).toList
        ++ '{' :: ((Metrics.labelString labels).toList ++ ['}']) := by
  show ((Metrics.prefixedName cfg name ++ "\x7b" ++ Metrics.labelString labels ++ "\x7d")).toList = _
  simp [string_toList_append, List.append_assoc]

/-- With a brace-free prefixed name, `key.split('{')[0]` recovers exactly the
prefixed instrument name. -/
theorem jsSplitHeadBrace_getKey (cfg : MetricsConfigR) (name : String) (labels : Option Labels)
    (h : '{' ∉ (Metrics.prefixedName cfg name).toList) :
    jsSplitHeadBrace (Metrics.getKey cfg name labels) = Metrics.prefixedName cfg name := by
  unfold jsSplitHeadBrace
  rw [getKey_toList, takeWhile_brace _ _ h, string_mk_toList]

/-- With a brace-free prefixed name, the label slice of the key is exactly
`"{" ++ labelStr ++ "}"`. -/
theorem jsLabelSlice_getKey (cfg : MetricsConfigR) (name : String) (labels : Option Labels)
    (h : '{' ∉ (Metrics.prefixedName cfg name).toList) :
    jsLabelSlice (Metrics.getKey cfg name labels) =
      "\x7b" ++ Metrics.labelString labels ++ "\x7d" := by
  unfold jsLabelSlice
  rw [getKey_toList]
  rw [if_pos (by simp)]
  rw [dropWhile_brace _ _ h]
  conv_rhs => rw [← string_mk_toList ("\x7b" ++ Metrics.labelString labels ++ "\x7d")]
  exact congrArg String.mk (by simp [string_toList_append])

/-- With brace-free name and labels, `key.replace('}', ',le="+Inf"}')`
appends the `+Inf` bucket label before the closing brace. -/
theorem jsReplaceInf_getKey (cfg : MetricsConfigR) (name : String) (labels : Option Labels)
    (hn : '}' ∉ (Metrics.prefixedName cfg name).toList)
    (hl : '}' ∉ (Metrics.labelString labels).toList) :
    jsReplaceInf (Metrics.getKey cfg name labels) =
      Metrics.prefixedName cfg name ++ "\x7b" ++ Metrics.labelString labels
        ++ ",le=\"+Inf\"\x7d" := by
  unfold jsReplaceInf
  rw [getKey_toList]
  have key_eq : (Metrics.prefixedName cfg name).toList
      ++ '{' :: ((Metrics.labelString labels).toList ++ ['}'])
      = ((Metrics.prefixedName cfg name).toList ++ '{' :: (Metrics.labelString labels).toList)
          ++ '}' :: [] := by
    simp
  rw [key_eq]
  rw [replaceFirstChar_append _ _ _ _ (by
    simp only [List.mem_append, List.mem_cons, not_or]
    exact ⟨hn, by decide, hl⟩)]
  conv_rhs => rw [← string_mk_toList (Metrics.prefixedName cfg name ++ "\x7b"
    ++ Metrics.labelString labels ++ ",le=\"+Inf\"\x7d")]
  exact congrArg String.mk (by simp [string_toList_append, List.append_assoc])

theorem jsSum_eq_sum (values : List Int) : jsSum values = values.sum := by
  unfold jsSum
  exact (List.sum_eq_foldl).symm

theorem generateId_length (rand : Nat → Rat) (n : Nat) : (generateId rand n).length = n := by
  simp [generateId, String.length]

theorem generateId_mem_hexChars (rand : Nat → Rat) (n : Nat) :
    ∀ c ∈ (generateId rand n).toList, c ∈ hexChars := by
  intro c hc
  simp [generateId] at hc
  obtain ⟨i, _, rfl⟩ := hc
  by_cases hn : (Int.toNat ⌊rand i * 16⌋) < hexChars.length
  · rw [List.getElem?_eq_getElem hn]
    simp only [Option.getD_some]
    exact List.getElem_mem hn
  · rw [List.getElem?_eq_none (Nat.le_of_not_lt hn)]
    simp only [Option.getD_none]
    decide

theorem generateId_zero_stream (n : Nat) :
    generateId (fun _ => 0) n = String.mk (List.replicate n '0') := by
  unfold generateId
  norm_num
  rfl

theorem setStatus_status (s : SpanState) (st : SpanStatus) (msg : Option String) :
    (s.setStatus st msg).status = st := by
  unfold SpanState.setStatus
  cases msg with
  | none => rfl
  | some m => by_cases hm : m = "" <;> simp [hm]

theorem setStatus_endTime (s : SpanState) (st : SpanStatus) (msg : Option String) :
    (s.setStatus st msg).endTime = s.endTime := by
  unfold SpanState.setStatus
  cases msg with
  | none => rfl
  | some m => by_cases hm : m = "" <;> simp [hm]

theorem setStatus_events (s : SpanState) (st : SpanStatus) (msg : Option String) :
    (s.setStatus st msg).events = s.events := by
  unfold SpanState.setStatus
  cases msg with
  | none => rfl
  | some m => by_cases hm : m = "" <;> simp [hm]

theorem setStatus_onEndCalls (s : SpanState) (st : SpanStatus) (msg : Option String) :
    (s.setStatus st msg).onEndCalls = s.onEndCalls := by
  unfold SpanState.setStatus
  cases msg with
  | none => rfl
  | some m => by_cases hm : m = "" <;> simp [hm]

theorem applyEnds_append (s : SpanState) (a b : List Int) :
    SpanState.applyEnds s (a ++ b) = SpanState.applyEnds (SpanState.applyEnds s a) b := by
  induction a generalizing s with
  | nil => rfl
  | cons t ts ih => simp [SpanState.applyEnds, ih]

theorem applyEnds_onEndCalls (s : SpanState) (ts : List Int) :
    (SpanState.applyEnds s ts).onEndCalls = s.onEndCalls + ts.length := by
  induction ts generalizing s with
  | nil => simp [SpanState.applyEnds]
  | cons t ts ih =>
      simp [SpanState.applyEnds, ih, SpanState.endSpan]
      omega

theorem counterInc_self (cfg : MetricsConfigR) (m : MetricsState) (name : String)
    (value : Int) (labels : Option Labels) :
    counterValue (Metrics.counterInc cfg m name value labels) (Metrics.getKey cfg name labels)
      = counterValue m (Metrics.getKey cfg name labels) + value := by
  unfold counterValue Metrics.counterInc
  rw [assocFind_mapSet_self]
  rfl

theorem counterInc_other (cfg : MetricsConfigR) (m : MetricsState) (name : String)
    (value : Int) (labels : Option Labels) (k : String)
    (hk : k ≠ Metrics.getKey cfg name labels) :
    counterValue (Metrics.counterInc cfg m name value labels) k = counterValue m k := by
  unfold counterValue Metrics.counterInc
  rw [assocFind_mapSet_other _ _ _ _ (fun h => hk h.symm)]

theorem counterInc_mono (cfg : MetricsConfigR) (m : MetricsState) (name : String)
    (value : Int) (labels : Option Labels) (k : String) (hv : 0 ≤ value) :
    counterValue m k ≤ counterValue (Metrics.counterInc cfg m name value labels) k := by
  by_cases hk : k = Metrics.getKey cfg name labels
  · subst hk
    rw [counterInc_self]
    omega
  · rw [counterInc_other _ _ _ _ _ _ hk]

theorem applyCounterIncs_mono (cfg : MetricsConfigR) (m : MetricsState)
    (ops : List (String × Int × Option Labels)) (k : String)
    (hops : ∀ op ∈ ops, 0 ≤ op.2.1) :
    counterValue m k ≤ counterValue (Metrics.applyCounterIncs cfg m ops) k := by
  induction ops generalizing m with
  | nil => simp [Metrics.applyCounterIncs]
  | cons op ops ih =>
      obtain ⟨name, value, labels⟩ := op
      have h1 : 0 ≤ value := hops _ (List.mem_cons_self _ _)
      calc counterValue m k
          ≤ counterValue (Metrics.counterInc cfg m name value labels) k :=
            counterInc_mono cfg m name value labels k h1
        _ ≤ counterValue (Metrics.applyCounterIncs cfg
              (Metrics.counterInc cfg m name value labels) ops) k :=
            ih _ (fun op hop => hops _ (List.mem_cons_of_mem _ hop))

-- ============================================================
-- CLAIM THEOREMS
-- ============================================================

/-- C1: the claim demands that two label sets equal as mappings but given in
different insertion orders resolve to the same series (so
`counter("x").inc(1,{a:"1",b:"2"})` then `inc(1,{b:"2",a:"1"})` accumulates
to a single series of value 2).  Evaluating the code on exactly that input:
`getKey` preserves call-site order, the two calls produce two DIFFERENT
keys, and the registry ends with two distinct series each holding 1 —
the canonicalization the spec requires is absent from the code. -/
theorem claim_C1_code_evaluation :
    (Metrics.counterInc { service := "svc" }
        (Metrics.counterInc { service := "svc" } {} "x" 1 (some [("a", "1"), ("b", "2")]))
        "x" 1 (some [("b", "2"), ("a", "1")])).counters
      = [("x\x7ba=\"1\",b=\"2\"\x7d", 1), ("x\x7bb=\"2\",a=\"1\"\x7d", 1)]
    ∧ Metrics.getKey { service := "svc" } "x" (some [("a", "1"), ("b", "2")])
        ≠ Metrics.getKey { service := "svc" } "x" (some [("b", "2"), ("a", "1")]) := by
  decide

/-- C7 (counterexample): the claim says a counter series' value is
non-negative and never decreases across every sequence of `inc` calls, but
`inc` performs no sign check: after `inc(5)` then `inc(-8)` on the same
series the stored value is `-3`, which is negative and smaller than the
previous value `5`. -/
theorem claim_C7_counterexample :
    counterValue (Metrics.counterInc { service := "svc" }
        (Metrics.counterInc { service := "svc" } {} "c" 5 none) "c" (-8) none)
      (Metrics.getKey { service := "svc" } "c" none) = -3
    ∧ ((-3 : Int) < 0)
    ∧ counterValue (Metrics.counterInc { service := "svc" }
          (Metrics.counterInc { service := "svc" } {} "c" 5 none) "c" (-8) none)
        (Metrics.getKey { service := "svc" } "c" none)
      < counterValue (Metrics.counterInc { service := "svc" } {} "c" 5 none)
        (Metrics.getKey { service := "svc" } "c" none) := by
  decide

/-- C7 (amended): each `inc(value, labels)` adds `value` to the series'
accumulator — creating the series at 0 when absent — and leaves every other
series untouched; and PROVIDED every supplied increment is non-negative,
the accumulated value of any series is monotonically non-decreasing across
any sequence of `inc` calls and is non-negative when the registry started
empty. -/
theorem claim_C7_counter_accumulation (cfg : MetricsConfigR) (m : MetricsState)
    (name : String) (value : Int) (labels : Option Labels)
    (ops : List (String × Int × Option Labels)) (k : String)
    (hops : ∀ op ∈ ops, 0 ≤ op.2.1) :
    counterValue (Metrics.counterInc cfg m name value labels) (Metrics.getKey cfg name labels)
        = counterValue m (Metrics.getKey cfg name labels) + value
    ∧ (∀ k', k' ≠ Metrics.getKey cfg name labels →
        counterValue (Metrics.counterInc cfg m name value labels) k' = counterValue m k')
    ∧ counterValue m k ≤ counterValue (Metrics.applyCounterIncs cfg m ops) k
    ∧ 0 ≤ counterValue (Metrics.applyCounterIncs cfg {} ops) k := by
  refine ⟨counterInc_self cfg m name value labels,
    fun k' hk' => counterInc_other cfg m name value labels k' hk',
    applyCounterIncs_mono cfg m ops k hops, ?_⟩
  have h0 : counterValue {} k = 0 := rfl
  have := applyCounterIncs_mono cfg {} ops k hops
  omega

/-- C7 (witness): concrete instance of the amended claim — on a fresh
registry, `inc(3)` stores 3 for the series (created at 0), and after the
non-negative sequence `[inc(2)]` the series value is ≥ 0. -/
theorem claim_C7_witness :
    counterValue (Metrics.counterInc { service := "svc" } {} "c" 3 none)
        (Metrics.getKey { service := "svc" } "c" none)
      = counterValue ({} : MetricsState) (Metrics.getKey { service := "svc" } "c" none) + 3
    ∧ 0 ≤ counterValue
        (Metrics.applyCounterIncs { service := "svc" } {} [("c", 2, none)])
        (Metrics.getKey { service := "svc" } "c" none) := by
  have h := claim_C7_counter_accumulation { service := "svc" } {} "c" 3 none
    [("c", 2, none)] (Metrics.getKey { service := "svc" } "c" none)
    (by intro op hop; simp at hop; simp [hop])
  exact ⟨h.1, h.2.2.2⟩

/-- C6: for every histogram series (with braces not occurring in the
prefixed instrument name or the label string), the exposition block
consists of the `# TYPE <name> histogram` line, a cumulative `+Inf` bucket
line whose value is the number of observed samples, and `_sum` / `_count`
lines carrying the label portion of the series key, where the sum is the
sum of the raw observed values and the count their number; each of these
lines appears in the output of `toPrometheus`. -/
theorem claim_C6_histogram_exposition (cfg : MetricsConfigR) (name : String)
    (labels : Option Labels) (values : List Int) (m : MetricsState)
    (hb1 : '{' ∉ (Metrics.prefixedName cfg name).toList)
    (hb2 : '}' ∉ (Metrics.prefixedName cfg name).toList)
    (hb3 : '}' ∉ (Metrics.labelString labels).toList)
    (hser : assocFind m.histograms (Metrics.getKey cfg name labels) = some values) :
    histogramLines (Metrics.getKey cfg name labels) values =
      ["# TYPE " ++ Metrics.prefixedName cfg name ++ " histogram",
       (Metrics.prefixedName cfg name ++ "\x7b" ++ Metrics.labelString labels
         ++ ",le=\"+Inf\"\x7d") ++ " " ++ toString values.length,
       Metrics.prefixedName cfg name ++ "_sum" ++ ("\x7b" ++ Metrics.labelString labels
         ++ "\x7d") ++ " " ++ toString values.sum,
       Metrics.prefixedName cfg name ++ "_count" ++ ("\x7b" ++ Metrics.labelString labels
         ++ "\x7d") ++ " " ++ toString values.length]
    ∧ (∀ line ∈ histogramLines (Metrics.getKey cfg name labels) values,
        line ∈ Metrics.toPrometheusLines m)
    ∧ jsSum values = values.sum := by
  refine ⟨?_, ?_, jsSum_eq_sum values⟩
  · unfold histogramLines
    rw [jsSplitHeadBrace_getKey cfg name labels hb1,
      jsReplaceInf_getKey cfg name labels hb2 hb3,
      jsLabelSlice_getKey cfg name labels hb1,
      jsSum_eq_sum]
  · intro line hline
    unfold Metrics.toPrometheusLines
    refine List.mem_append_right _ ?_
    exact List.mem_flatMap.mpr ⟨(Metrics.getKey cfg name labels, values),
      assocFind_some_mem hser, hline⟩

/-- C6 (witness): `observe(10)` then `observe(20)` on one series of
histogram `lat` (no labels, no prefix): the exposition contains the TYPE
line, the `+Inf` bucket line with value 2, `lat_sum{} 30` and
`lat_count{} 2`. -/
theorem claim_C6_witness :
    "# TYPE lat histogram"
        ∈ Metrics.toPrometheusLines (Metrics.histogramObserve { service := "svc" }
            (Metrics.histogramObserve { service := "svc" } {} "lat" 10 none) "lat" 20 none)
    ∧ "lat\x7b,le=\"+Inf\"\x7d 2"
        ∈ Metrics.toPrometheusLines (Metrics.histogramObserve { service := "svc" }
            (Metrics.histogramObserve { service := "svc" } {} "lat" 10 none) "lat" 20 none)
    ∧ "lat_sum\x7b\x7d 30"
        ∈ Metrics.toPrometheusLines (Metrics.histogramObserve { service := "svc" }
            (Metrics.histogramObserve { service := "svc" } {} "lat" 10 none) "lat" 20 none)
    ∧ "lat_count\x7b\x7d 2"
        ∈ Metrics.toPrometheusLines (Metrics.histogramObserve { service := "svc" }
            (Metrics.histogramObserve { service := "svc" } {} "lat" 10 none) "lat" 20 none) := by
  have h := claim_C6_histogram_exposition { service := "svc" } "lat" none [10, 20]
    (Metrics.histogramObserve { service := "svc" }
      (Metrics.histogramObserve { service := "svc" } {} "lat" 10 none) "lat" 20 none)
    (by decide) (by decide) (by decide) (by decide)
  exact ⟨h.2.1 _ (by decide), h.2.1 _ (by decide), h.2.1 _ (by decide), h.2.1 _ (by decide)⟩

/-- C2: on a sampled `trace(name, fn, options)` call, when `fn` does not
itself end the span: a normal return sets the span's status to `ok`, ends
it (`endTime` stamped, the completion callback observed exactly once) and
returns `fn`'s value; a thrown/rejected error sets status `error` with the
error's message (`"Unknown error"` for a non-`Error` value, recorded under
`status.message` when non-empty), ends the span exactly once, and the
original error propagates unchanged. -/
theorem claim_C2_trace_status_and_end {T : Type} (cfg : TracerConfigR) (r : Rat)
    (randTrace randSpan : Nat → Rat) (t0 tEnd : Int) (name : String)
    (options : SpanOptionsR) (fn : SpanState → SpanState × Except Thrown T)
    (hs : Tracer.shouldSample cfg r = true)
    (hfn : ∀ s, ((fn s).1).onEndCalls = s.onEndCalls) :
    ∃ s0 : SpanState,
      Tracer.startSpanObj cfg r randTrace randSpan t0 name options = .real s0
      ∧ s0.onEndCalls = 0
      ∧ (∀ v : T, (fn s0).2 = .ok v →
          (Tracer.traceSampled s0 fn tEnd).1 = .ok v
          ∧ (Tracer.traceSampled s0 fn tEnd).2.status = .ok
          ∧ (Tracer.traceSampled s0 fn tEnd).2.endTime = some tEnd
          ∧ (Tracer.traceSampled s0 fn tEnd).2.onEndCalls = 1)
      ∧ (∀ e : Thrown, (fn s0).2 = .error e →
          (Tracer.traceSampled s0 fn tEnd).1 = .error e
          ∧ (Tracer.traceSampled s0 fn tEnd).2.status = .error
          ∧ (Tracer.traceSampled s0 fn tEnd).2.endTime = some tEnd
          ∧ (Tracer.traceSampled s0 fn tEnd).2.onEndCalls = 1
          ∧ (e.messageFor ≠ "" →
              assocFind (Tracer.traceSampled s0 fn tEnd).2.attributes "status.message"
                = some (.str e.messageFor))) := by
  have hreal : ∃ s0 : SpanState,
      Tracer.startSpanObj cfg r randTrace randSpan t0 name options = .real s0
        ∧ s0.onEndCalls = 0 := by
    unfold Tracer.startSpanObj
    rw [if_neg (by simp [hs])]
    exact ⟨_, rfl, rfl⟩
  obtain ⟨s0, hstart, hcalls0⟩ := hreal
  refine ⟨s0, hstart, hcalls0, ?_, ?_⟩
  all_goals intro x hx
  · cases hfs : fn s0 with
    | mk s1 out =>
        rw [hfs] at hx
        simp only at hx
        subst hx
        have h1 : s1.onEndCalls = 0 := by
          have h2 := hfn s0
          rw [hfs] at h2
          simp only at h2
          rw [h2, hcalls0]
        unfold Tracer.traceSampled
        rw [hfs]
        refine ⟨rfl, ?_, rfl, ?_⟩
        · show (s1.setStatus .ok none).status = .ok
          exact setStatus_status s1 .ok none
        · show (s1.setStatus .ok none).onEndCalls + 1 = 1
          rw [setStatus_onEndCalls, h1]
  · cases hfs : fn s0 with
    | mk s1 out =>
        rw [hfs] at hx
        simp only at hx
        subst hx
        have h1 : s1.onEndCalls = 0 := by
          have h2 := hfn s0
          rw [hfs] at h2
          simp only at h2
          rw [h2, hcalls0]
        unfold Tracer.traceSampled
        rw [hfs]
        refine ⟨rfl, ?_, rfl, ?_, ?_⟩
        · show (s1.setStatus .error (some x.messageFor)).status = .error
          exact setStatus_status s1 .error _
        · show (s1.setStatus .error (some x.messageFor)).onEndCalls + 1 = 1
          rw [setStatus_onEndCalls, h1]
        · intro hmsg
          show assocFind (s1.setStatus .error (some x.messageFor)).attributes
            "status.message" = some (.str x.messageFor)
          unfold SpanState.setStatus
          simp only
          rw [if_neg hmsg]
          exact assocFind_mapSet_self _ _ _

/-- C2 (witness): with `sampleRate = 1`, a draw of 0 and a wrapped function
throwing `Error("x")`: the sampled span exists, the call re-raises the
original error, status is `error`, `status.message` is `"x"`, and the
completion callback fired exactly once. -/
theorem claim_C2_witness :
    ∃ s0 : SpanState,
      Tracer.startSpanObj { service := "svc", sampleRate := 1 } 0 (fun _ => 0) (fun _ => 0)
        0 "op" ⟨none, none⟩ = .real s0
      ∧ (Tracer.traceSampled s0 (fun s => (s, (.error (.errorObj "x") : Except Thrown Nat))) 7).1
          = .error (.errorObj "x")
      ∧ (Tracer.traceSampled s0 (fun s => (s, (.error (.errorObj "x") : Except Thrown Nat))) 7).2.onEndCalls
          = 1 := by
  obtain ⟨s0, h1, _, _, h4⟩ := claim_C2_trace_status_and_end
    (T := Nat) { service := "svc", sampleRate := 1 } 0 (fun _ => 0) (fun _ => 0) 0 7 "op"
    ⟨none, none⟩ (fun s => (s, .error (.errorObj "x")))
    (by decide) (fun s => rfl)
  obtain ⟨h5, _, _, h8, _⟩ := h4 (.errorObj "x") rfl
  exact ⟨s0, h1, h5, h8⟩

/-- C3: evaluating the code at the claim's configuration `sampleRate = 0`:
`shouldSample` computes `Math.random() < (0 || 1.0)`, i.e. compares
against 1.0 because 0 is falsy, so `startSpan` returns a REAL sampled span
(mutating mutators, callback-firing `end`), not the no-op span the claim
requires.  Moreover even the genuine no-op span (unreachable at rate 0)
violates the claim: its mutators return a fresh empty object — not the
span itself — and calling a mutator on that empty object is a TypeError
(`none` in the method-dispatch model), so chained calls fail. -/
theorem claim_C3_code_evaluation :
    SpanObj.isReal (Tracer.startSpanObj { service := "svc", sampleRate := 0 } 0
      (fun _ => 0) (fun _ => 0) 0 "op" ⟨none, none⟩) = true
    ∧ SpanObj.setAttributeM (.noop "op") "k" (.str "v") = some .emptyObj
    ∧ SpanObj.addEventM .emptyObj 0 "e" none = none
    ∧ SpanObj.endM (.noop "op") 9 = some (.noop "op") := by
  refine ⟨?_, rfl, rfl, rfl⟩
  unfold Tracer.startSpanObj
  rw [if_neg (by simp [Tracer.shouldSample, jsOrNum])]
  rfl

/-- C4 (counterexample): the claim demands that a span created with
`options.parent` set has a traceId equal to the parent's exactly, and that
every span's traceId is 32 lowercase hex chars.  With parent the tracer's
own no-op span (traceId `""`), the `parent?.traceId || generateId(32)`
fallback treats the empty traceId as absent and mints a fresh id, so the
child's traceId differs from the parent's; and with a parent whose traceId
is `"zz"`, the child inherits `"zz"`, which is not 32 hex characters. -/
theorem claim_C4_counterexample :
    SpanObj.traceIdOf (Tracer.startSpanObj { service := "svc", sampleRate := 1 } 0
        (fun _ => 0) (fun _ => 0) 0 "child" { parent := some (.noop "p") })
      ≠ SpanObj.traceIdOf (.noop "p")
    ∧ SpanObj.traceIdOf (Tracer.startSpanObj { service := "svc", sampleRate := 1 } 0
        (fun _ => 0) (fun _ => 0) 0 "child" { parent := some (.real parentZZ) })
      = some "zz"
    ∧ ("zz" : String).length ≠ 32 := by
  refine ⟨?_, ?_, by decide⟩
  · unfold Tracer.startSpanObj
    rw [if_neg (by simp [Tracer.shouldSample, jsOrNum])]
    show some (jsOrStr (some "") (generateId (fun _ => 0) 32)) ≠ some ""
    rw [generateId_zero_stream]
    decide
  · unfold Tracer.startSpanObj
    rw [if_neg (by simp [Tracer.shouldSample, jsOrNum])]
    rfl

/-- C4 (amended): with `sampleRate = 1` (and any admissible draw `< 1`)
every `startSpan` call yields a real span whose spanId is exactly 16
lowercase hexadecimal characters; its traceId is a freshly generated
32-lowercase-hex string whenever no parent traceId is usable
(`options.parent` absent, or its traceId empty/undefined — the `||`
fallback), and equals the parent's traceId exactly whenever the parent's
traceId is non-empty. -/
theorem claim_C4_ids_wellformed (cfg : TracerConfigR) (r : Rat)
    (randTrace randSpan : Nat → Rat) (t0 : Int) (name : String) (options : SpanOptionsR)
    (hrate : cfg.sampleRate = 1) (hr : r < 1) :
    ∃ s : SpanState,
      Tracer.startSpanObj cfg r randTrace randSpan t0 name options = .real s
      ∧ s.spanId.length = 16
      ∧ (∀ c ∈ s.spanId.toList, c ∈ hexChars)
      ∧ ((options.parent.bind SpanObj.traceIdOf = none
            ∨ options.parent.bind SpanObj.traceIdOf = some "") →
          s.traceId.length = 32 ∧ ∀ c ∈ s.traceId.toList, c ∈ hexChars)
      ∧ (∀ tid, options.parent.bind SpanObj.traceIdOf = some tid → tid ≠ "" →
          s.traceId = tid) := by
  have hsample : Tracer.shouldSample cfg r = true := by
    simp [Tracer.shouldSample, jsOrNum, hrate]
    exact hr
  have hex : ∃ s : SpanState,
      Tracer.startSpanObj cfg r randTrace randSpan t0 name options = .real s
      ∧ s.spanId = generateId randSpan 16
      ∧ s.traceId = jsOrStr (options.parent.bind SpanObj.traceIdOf)
          (generateId randTrace 32) := by
    unfold Tracer.startSpanObj
    rw [if_neg (by simp [hsample])]
    exact ⟨_, rfl, rfl, rfl⟩
  obtain ⟨s, hstart, hspan, htrace⟩ := hex
  refine ⟨s, hstart, ?_, ?_, ?_, ?_⟩
  · rw [hspan]; exact generateId_length randSpan 16
  · rw [hspan]; exact generateId_mem_hexChars randSpan 16
  · intro hnone
    rw [htrace]
    rcases hnone with h | h <;>
      simp only [h, jsOrStr, if_pos rfl] <;>
      exact ⟨generateId_length randTrace 32, generateId_mem_hexChars randTrace 32⟩
  · intro tid htid hne
    rw [htrace, htid]
    simp [jsOrStr, hne]

/-- C4 (witness): with `sampleRate = 1`, draw 0, and a parent whose traceId
is the 32-hex string below, the child span exists, carries a 16-character
spanId, and inherits the parent's traceId exactly. -/
theorem claim_C4_witness :
    ∃ s : SpanState,
      Tracer.startSpanObj { service := "svc", sampleRate := 1 } 0 (fun _ => 0) (fun _ => 0)
          0 "child" { parent := some (.real parentHex) }
        = .real s
      ∧ s.spanId.length = 16
      ∧ s.traceId = "0123456789abcdef0123456789abcdef" := by
  obtain ⟨s, h1, h2, _, _, h5⟩ := claim_C4_ids_wellformed
    { service := "svc", sampleRate := 1 } 0 (fun _ => 0) (fun _ => 0) 0 "child"
    { parent := some (.real parentHex) }
    rfl (by decide)
  exact ⟨s, h1, h2, h5 _ rfl (by decide)⟩

/-- C8 (counterexample): the claim says `setStatus` records the message
under `status.message` ONLY when the status is `'error'`; but the code
guards only on message truthiness, so `setStatus('ok', "oops")` also
records it. -/
theorem claim_C8_counterexample :
    (SpanState.setStatus spanFix .ok (some "oops")).status = .ok
    ∧ assocFind (SpanState.setStatus spanFix .ok (some "oops")).attributes "status.message"
      = some (.str "oops") := by
  decide

/-- C8 (amended): for every sampled span, `setStatus(status, message)` sets
the status field to the given status; it records the message under the
reserved attribute key `status.message` whenever a non-empty message is
supplied — for `'ok'` as well as `'error'` (the code guards only on message
truthiness; `trace()` happens to pass a message only with `'error'`) — and
leaves it untouched for an absent or empty message; it leaves every other
attribute and the event list unchanged, and never changes `endTime`. -/
theorem claim_C8_setStatus_frame (s : SpanState) (st : SpanStatus) (msg : Option String) :
    (s.setStatus st msg).status = st
    ∧ (s.setStatus st msg).endTime = s.endTime
    ∧ (s.setStatus st msg).events = s.events
    ∧ (∀ k, k ≠ "status.message" →
        assocFind (s.setStatus st msg).attributes k = assocFind s.attributes k)
    ∧ (∀ m, msg = some m → m ≠ "" →
        assocFind (s.setStatus st msg).attributes "status.message" = some (.str m))
    ∧ ((msg = none ∨ msg = some "") → (s.setStatus st msg).attributes = s.attributes) := by
  refine ⟨setStatus_status s st msg, setStatus_endTime s st msg, setStatus_events s st msg,
    ?_, ?_, ?_⟩
  · intro k hk
    unfold SpanState.setStatus
    cases msg with
    | none => rfl
    | some m =>
        by_cases hm : m = ""
        · simp [hm]
        · simp only [hm, if_neg hm]
          exact assocFind_mapSet_other _ _ _ _ (fun h => hk h.symm)
  · intro m hmsg hm
    subst hmsg
    unfold SpanState.setStatus
    simp only
    rw [if_neg hm]
    exact assocFind_mapSet_self _ _ _
  · intro hmsg
    unfold SpanState.setStatus
    rcases hmsg with h | h <;> subst h <;> simp

/-- C8 (witness): on a fresh span, `setStatus('error', "boom")` sets status
`error`, records `status.message = "boom"`, and leaves endTime and events
unchanged; other attribute keys read as before. -/
theorem claim_C8_witness :
    (SpanState.setStatus spanFix .error (some "boom")).status = .error
    ∧ (SpanState.setStatus spanFix .error (some "boom")).endTime = none
    ∧ assocFind (SpanState.setStatus spanFix .error (some "boom")).attributes "status.message"
      = some (.str "boom")
    ∧ assocFind (SpanState.setStatus spanFix .error (some "boom")).attributes "other"
      = assocFind spanFix.attributes "other" := by
  have h := claim_C8_setStatus_frame spanFix .error (some "boom")
  exact ⟨h.1, h.2.1, h.2.2.2.2.1 "boom" rfl (by decide), h.2.2.2.1 "other" (by decide)⟩

/-- C10: `end()` is not idempotent: every call stamps `endTime` with the
current clock and fires the completion callback again, so a sequence of
`n` `end()` calls yields exactly `n` callback invocations and leaves
`endTime` at the last call's time; in particular a second `end()` call
produces a state distinct from the first. -/
theorem claim_C10_end_not_idempotent (s : SpanState) (ts : List Int) (t tLast : Int)
    (pre : List Int) :
    (SpanState.applyEnds s ts).onEndCalls = s.onEndCalls + ts.length
    ∧ (ts = pre ++ [tLast] → (SpanState.applyEnds s ts).endTime = some tLast)
    ∧ (s.endSpan t).endTime = some t
    ∧ (s.endSpan t).onEndCalls = s.onEndCalls + 1
    ∧ (s.endSpan t).endSpan t ≠ s.endSpan t := by
  refine ⟨applyEnds_onEndCalls s ts, ?_, rfl, rfl, ?_⟩
  · intro hts
    subst hts
    rw [applyEnds_append]
    rfl
  · intro h
    have := congrArg SpanState.onEndCalls h
    simp [SpanState.endSpan] at this

/-- C10 (witness): a fresh span ended twice (at times 3 then 5) shows two
callback invocations and endTime 5. -/
theorem claim_C10_witness :
    (SpanState.applyEnds spanFix [3, 5]).onEndCalls = spanFix.onEndCalls + 2
    ∧ (SpanState.applyEnds spanFix [3, 5]).endTime = some 5 := by
  have h := claim_C10_end_not_idempotent spanFix [3, 5] 0 5 [3]
  exact ⟨h.1, h.2.1 rfl⟩

/-- C5: for every configured minimum level and every call level, the call
emits exactly one entry — with the call's level, the configured service,
the message and the context, tagged with the bound trace context — iff
`LOG_LEVELS[L] ≥ LOG_LEVELS[M]` in the ordering debug(0) < info(1) <
warn(2) < error(3) < fatal(4); below the minimum the call is a no-op
producing no entry (it returns before even the timestamp is taken).  The
five public methods route through `log` at their respective levels. -/
theorem claim_C5_level_filtering (l : LoggerState) (level : LogLevel) (message : String)
    (context : Option LogCtx) (error : Option ErrObj) (now : Int) :
    (LOG_LEVELS level ≥ LOG_LEVELS l.level →
      Logger.log l level message context error now =
        some { level := level, message := message, timestamp := now, service := l.service,
               context := context, error := error, traceId := l.currentTraceId,
               spanId := l.currentSpanId })
    ∧ (LOG_LEVELS level < LOG_LEVELS l.level →
      Logger.log l level message context error now = none)
    ∧ Logger.debugM l message context now = Logger.log l .debug message context none now
    ∧ Logger.infoM l message context now = Logger.log l .info message context none now
    ∧ Logger.warnM l message context now = Logger.log l .warn message context none now
    ∧ Logger.errorM l message error context now = Logger.log l .error message context error now
    ∧ Logger.fatalM l message error context now = Logger.log l .fatal message context error now := by
  refine ⟨?_, ?_, rfl, rfl, rfl, rfl, rfl⟩
  · intro hge
    unfold Logger.log
    rw [if_neg (by simp [Logger.shouldLog, hge])]
  · intro hlt
    unfold Logger.log
    rw [if_pos (by simp [Logger.shouldLog]; omega)]

/-- C5 (witness): a logger configured at minimum `warn`: an `info` call
emits nothing; a `warn` call emits exactly one entry carrying level,
service, message and context. -/
theorem claim_C5_witness :
    Logger.log (Logger.create false { service := "svc", level := some .warn })
        .info "quiet" none none 3 = none
    ∧ Logger.log (Logger.create false { service := "svc", level := some .warn })
        .warn "loud" (some [("k", "v")]) none 3 =
      some { level := .warn, message := "loud", timestamp := 3, service := "svc",
             context := some [("k", "v")], error := none, traceId := none,
             spanId := none } := by
  refine ⟨(claim_C5_level_filtering _ .info "quiet" none none 3).2.1 (by decide),
    (claim_C5_level_filtering _ .warn "loud" (some [("k", "v")]) none 3).1 (by decide)⟩

/-- C9: evaluating the code at the claim's own scenario — destination
`'custom'` with a caller-supplied handler: `log` invokes
`this.config.customHandler(entry)` with no try/catch anywhere on the path,
so an exception thrown by the handler propagates out of the logging call
(`Except.error "handler boom"` below) instead of being degraded to a
fallback.  The claim that a logging call never raises does not hold of
the code. -/
theorem claim_C9_code_evaluation :
    Logger.logRun
        (Logger.create false { service := "svc", level := some .debug,
                               destination := some .custom })
        (fun _ => .error "handler boom") .info "hi" none none 0
      = .error "handler boom" := by
  rfl

end Sdods
